import Mathlib

/-!
Verification development for the PCC class-list parsing tool
(`classlist_parser/parser.py`).  The extraction state machine, the
course-header and student-row matchers, term detection and record
grouping are embedded as executable Lean functions over `List Char`
lines, mirroring the Python source line by line.  Python regular
expressions are compiled by hand into deterministic scanners; each
greedy class in the source patterns is followed by a disjoint class,
so maximal-munch scanning is equivalent to the backtracking semantics.
Character classes model the ASCII range of Python's `\s`, `\d`, `\w`.
-/

namespace ClassList

/-- ASCII part of Python's `\s` (also the set used by `str.strip()`). -/
def isPySpace (c : Char) : Bool :=
  c = ' ' || c = '\t' || c = '\n' || c = '\r' || c = '\x0b' || c = '\x0c'

/-- Python's `\d` (ASCII). -/
def isDigitCh (c : Char) : Bool := '0' ≤ c && c ≤ '9'

/-- Python's `\w` (ASCII): letters, digits, underscore. -/
def isWordCh (c : Char) : Bool :=
  isDigitCh c || ('a' ≤ c && c ≤ 'z') || ('A' ≤ c && c ≤ 'Z') || c = '_'

def isUpperAZ (c : Char) : Bool := 'A' ≤ c && c ≤ 'Z'

/-- Python `str.strip()` on a character list. -/
def pyStrip (cs : List Char) : List Char :=
  ((cs.dropWhile isPySpace).reverse.dropWhile isPySpace).reverse

/-- First whitespace-delimited token, i.e. `s.split()[0]` when it exists
(`[]` when the string is all whitespace, where Python would raise; the
parser only reaches that case with an all-whitespace email domain). -/
def firstWsToken (cs : List Char) : List Char :=
  (cs.dropWhile isPySpace).takeWhile (fun c => !(isPySpace c))

/-- Substring test, Python's `pat in s`. -/
def isSubstr (pat : List Char) : List Char → Bool
  | [] => pat.isEmpty
  | c :: rest => pat.isPrefixOf (c :: rest) || isSubstr pat rest

/-- The `current_class` dictionary built from a header-line match. -/
structure CourseContext where
  crn : String
  subject : String
  courseNumber : String
  sect : String
  courseName : String
deriving DecidableEq, Repr

/--
`re.match(r"\s*(\d{5})\s+(\w+)\s+(\d+[A-Z]?)\s+(\d)\s+(.*)", line)`.
Each greedy piece (`\s*`, `\d{5}`, `\s+`, `\w+`, `\d+`, `[A-Z]?`, `(\d)`)
is followed by a character class disjoint from its own, so the
backtracking regex accepts exactly the maximal-munch parse below:
leading whitespace, a maximal digit run of length exactly 5 (a sixth
digit would make `\s+` fail), whitespace, a maximal word run, whitespace,
a maximal digit run plus an optional single uppercase letter, whitespace,
one digit, at least one whitespace character, and the rest as the title
(`group(5)`, to which the caller applies `.strip()`).
-/
def matchHeader (line : List Char) : Option CourseContext :=
  let s0 := line.dropWhile isPySpace
  let crn := s0.takeWhile isDigitCh
  let s1 := s0.dropWhile isDigitCh
  if crn.length ≠ 5 then none
  else if (s1.takeWhile isPySpace).isEmpty then none
  else
    let s2 := s1.dropWhile isPySpace
    let subj := s2.takeWhile isWordCh
    let s3 := s2.dropWhile isWordCh
    if subj.isEmpty then none
    else if (s3.takeWhile isPySpace).isEmpty then none
    else
      let s4 := s3.dropWhile isPySpace
      let numDs := s4.takeWhile isDigitCh
      let s5 := s4.dropWhile isDigitCh
      if numDs.isEmpty then none
      else
        let cnum := match s5 with
          | c :: _ => if isUpperAZ c then numDs ++ [c] else numDs
          | [] => numDs
        let s6 := match s5 with
          | c :: rest => if isUpperAZ c then rest else s5
          | [] => []
        if (s6.takeWhile isPySpace).isEmpty then none
        else
          match s6.dropWhile isPySpace with
          | d :: s8 =>
            if isDigitCh d then
              if (s8.takeWhile isPySpace).isEmpty then none
              else
                some { crn := String.mk crn
                       subject := String.mk subj
                       courseNumber := String.mk cnum
                       sect := String.mk [d]
                       courseName := String.mk (pyStrip (s8.dropWhile isPySpace)) }
            else none
          | [] => none

/-- Does `G\d{8}` match at the head of `cs`?  Returns the 9-character
token (a ninth digit after the token is permitted, as in the source
pattern, which has no trailing boundary). -/
def gnumAt (cs : List Char) : Option (List Char) :=
  match cs with
  | 'G' :: rest =>
    let ds := rest.take 8
    if ds.length = 8 && ds.all isDigitCh then some ('G' :: ds) else none
  | _ => none

/--
`re.search(r"(G\d{8})", line)`: first match, scanning left to right.
Returns the characters before the match together with the token, so that
`pre` is exactly `line.split(tok)[0]` (an occurrence of the token string
is itself a pattern occurrence, hence none can precede the first
pattern match).
-/
def gSearch : List Char → Option (List Char × List Char)
  | [] => none
  | c :: rest =>
    match gnumAt (c :: rest) with
    | some t => some ([], t)
    | none => (gSearch rest).map (fun pt => (c :: pt.1, pt.2))

/-- Python `s.split(None, 1)`: at most two pieces, separators are
whitespace runs, leading whitespace dropped, an all-whitespace remainder
dropped, a trailing remainder kept verbatim. -/
def splitFirstTok (cs : List Char) : List (List Char) :=
  let s1 := cs.dropWhile isPySpace
  if s1.isEmpty then []
  else
    let tok := s1.takeWhile (fun c => !(isPySpace c))
    let rest := (s1.dropWhile (fun c => !(isPySpace c))).dropWhile isPySpace
    if rest.isEmpty then [tok] else [tok, rest]

/-- Python `s.split(',')`. -/
def splitComma : List Char → List (List Char)
  | [] => [[]]
  | c :: rest =>
    if c = ',' then [] :: splitComma rest
    else
      match splitComma rest with
      | s :: ss => (c :: s) :: ss
      | [] => [[c]]

/--
The name decomposition of the student-row matcher, applied to the text
before the identifier token:
`last_first = name_part.split(None, 1)[1].split(',')`;
`last_name = last_first[0].strip()`; `first_name = last_first[1].strip()`;
any `IndexError` is caught and both names become `""`.
Returns `(last_name, first_name)`.
-/
def extractNames (pre : List Char) : String × String :=
  match splitFirstTok pre with
  | [_, rest] =>
    match splitComma rest with
    | l :: f :: _ => (String.mk (pyStrip l), String.mk (pyStrip f))
    | _ => ("", "")
  | _ => ("", "")

/-- Configuration from the `SETTINGS` dictionary (the fields the scan
reads, plus `department_prefix`, which the source declares and documents
but never consults during parsing). -/
structure Settings where
  departmentPrefix : Option String
  allowedCourses : Option (List String)
  emailDomain : String
deriving DecidableEq, Repr

def defaultSettings : Settings :=
  { departmentPrefix := none
    allowedCourses := some ["170", "221", "223", "240", "242", "244", "246",
                            "248", "252", "254", "260", "265", "266", "267",
                            "270", "280A"]
    emailDomain := "@pcc.edu" }

/-- `allowed is not None and course_number not in allowed` decides
clearing; this is the complementary acceptance test. -/
def allowedCourse (st : Settings) (n : String) : Bool :=
  match st.allowedCourses with
  | none => true
  | some l => l.contains n

/-- One line of the header pass:
a matching header either installs a new context or (when its course
number is excluded) clears the context; a non-matching line leaves the
context unchanged. -/
def headerStep (st : Settings) (ctx : Option CourseContext) (line : List Char) :
    Option CourseContext :=
  match matchHeader line with
  | some h => if allowedCourse st h.courseNumber then some h else none
  | none => ctx

/-- The email look-ahead: `lines[idx+1].strip()`, then take the first
whitespace token when the configured domain occurs as a substring. -/
def emailLookahead (st : Settings) : Option (List Char) → String
  | none => ""
  | some nl =>
    let el := pyStrip nl
    if isSubstr st.emailDomain.data el then String.mk (firstWsToken el) else ""

/-- The record dictionary appended for a matched student row. -/
structure StudentRecord where
  firstName : String
  lastName : String
  gNumber : String
  pccEmail : String
  nonPccEmail : String
  className : String
  crn : String
deriving DecidableEq, Repr

def rowRecord (st : Settings) (c : CourseContext) (pre tok : List Char)
    (nextLine : Option (List Char)) : StudentRecord :=
  let nm := extractNames pre
  { firstName := nm.2
    lastName := nm.1
    gNumber := String.mk tok
    pccEmail := emailLookahead st nextLine
    nonPccEmail := ""
    className := c.subject ++ " " ++ c.courseNumber
    crn := c.crn }

/--
The student-row `while` loop of the state machine, run with the course
context left by the page's header pass.  A line whose `G\d{8}` search
succeeds while a context is active emits one record and the loop does
`idx += 2`, unconditionally skipping the following line; otherwise
`idx += 1`.
-/
def scanRows (st : Settings) (ctx : Option CourseContext) :
    List (List Char) → List StudentRecord
  | [] => []
  | [line] =>
    match gSearch line, ctx with
    | some pt, some c => [rowRecord st c pt.1 pt.2 none]
    | _, _ => []
  | line :: next :: rest =>
    match gSearch line, ctx with
    | some pt, some c => rowRecord st c pt.1 pt.2 (some next) :: scanRows st ctx rest
    | _, _ => scanRows st ctx (next :: rest)

/-- One page: the full header pass first (left fold over all lines,
last match wins), then the row pass against the resulting context. -/
def processPage (st : Settings) (ctx : Option CourseContext)
    (lines : List (List Char)) : Option CourseContext × List StudentRecord :=
  let ctx2 := lines.foldl (headerStep st) ctx
  (ctx2, scanRows st ctx2 lines)

/-- The page loop: `current_class` is initialised once, outside the loop,
and threads from page to page. -/
def processPages (st : Settings) (ctx : Option CourseContext) :
    List (List (List Char)) → List StudentRecord
  | [] => []
  | pg :: rest =>
    let pr := processPage st ctx pg
    pr.2 ++ processPages st pr.1 rest

/-- Whole-document scan, starting with `current_class = {}`. -/
def parseDocument (st : Settings) (pages : List (List (List Char))) :
    List StudentRecord :=
  processPages st none pages

/-! ### Term detection (`_TERM_TEXT_RE`, `_TERM_CODE_RE`, `_term_from_code`,
`_detect_term_from_pdf`) -/

/-- The alternation of `_TERM_TEXT_RE`, in source order.  No alternative is
a case-insensitive prefix of another, so at any position at most one can
match the text. -/
def seasonWords : List (List Char) :=
  ["Spring".data, "Summer".data, "Fall".data, "Winter".data]

/-- Case-insensitive prefix test (ASCII folding, matching `re.I`). -/
def ciPrefix (pat s : List Char) : Bool :=
  (s.take pat.length).map Char.toLower = pat.map Char.toLower

/-- Try `(Spring|Summer|Fall|Winter)\s+(20\d{2})\b` at the current
position (the word boundary before the season is the caller's duty).
Returns the season text as it appears (for `.title()`) and the year. -/
def termTextAt (s : List Char) : Option (List Char × List Char) :=
  match seasonWords.find? (fun w => ciPrefix w s) with
  | none => none
  | some w =>
    let matched := s.take w.length
    let s1 := s.drop w.length
    if (s1.takeWhile isPySpace).isEmpty then none
    else
      match s1.dropWhile isPySpace with
      | '2' :: '0' :: d1 :: d2 :: rest =>
        if isDigitCh d1 && isDigitCh d2 &&
            (match rest.head? with | some c => !(isWordCh c) | none => true) then
          some (matched, ['2', '0', d1, d2])
        else none
      | _ => none

/-- `_TERM_TEXT_RE.search`: leftmost match; `prev` carries the previous
character so the leading `\b` can be checked (the season starts with a
word character, so the boundary holds iff `prev` is absent or non-word). -/
def termTextGo (prev : Option Char) : List Char → Option (List Char × List Char)
  | [] => none
  | c :: rest =>
    let boundary := match prev with | none => true | some p => !(isWordCh p)
    if boundary then
      match termTextAt (c :: rest) with
      | some r => some r
      | none => termTextGo (some c) rest
    else termTextGo (some c) rest

/-- Try `(20\d{2}0[1-4])\b` at the current position. -/
def termCodeAt : List Char → Option (List Char)
  | '2' :: '0' :: d1 :: d2 :: '0' :: c :: rest =>
    if isDigitCh d1 && isDigitCh d2 && ('1' ≤ c && c ≤ '4') &&
        (match rest.head? with | some x => !(isWordCh x) | none => true) then
      some ['2', '0', d1, d2, '0', c]
    else none
  | _ => none

/-- First match of `_TERM_CODE_RE` (the source iterates `finditer`, but
accepts the first match: every matched code ends in `1..4`, so its
decoded season is never empty). -/
def termCodeGo (prev : Option Char) : List Char → Option (List Char)
  | [] => none
  | c :: rest =>
    let boundary := match prev with | none => true | some p => !(isWordCh p)
    if boundary then
      match termCodeAt (c :: rest) with
      | some r => some r
      | none => termCodeGo (some c) rest
    else termCodeGo (some c) rest

/-- `_term_from_code`: `season_map.get(int(code[-1]), '')` composed with
the first four digits, then `.strip()` (which removes the separating
space when the season is empty). -/
def termFromCode (code : List Char) : String :=
  let season : List Char :=
    match code.getLast? with
    | some '1' => "Winter".data
    | some '2' => "Spring".data
    | some '3' => "Summer".data
    | some '4' => "Fall".data
    | _ => []
  String.mk (pyStrip (season ++ ' ' :: code.take 4))

/-- Python `str.title()` on a single word (the matched season). -/
def titleWord : List Char → List Char
  | [] => []
  | c :: rest => c.toUpper :: rest.map Char.toLower

/-- `_detect_term_from_pdf`, applied to the extracted first-page text:
direct phrase first (`group(1).title() + " " + group(2)`), then the
first coded token, then the empty string. -/
def detectTerm (firstPageText : List Char) : String :=
  match termTextGo none firstPageText with
  | some sy => String.mk (titleWord sy.1 ++ ' ' :: sy.2)
  | none =>
    match termCodeGo none firstPageText with
    | some code => termFromCode code
    | none => ""

/-! ### Record grouping (`grouped = defaultdict(list)`) -/

/-- The grouping key `f"{rec['Class']}_{rec['CRN']}"`. -/
def recKey (r : StudentRecord) : String :=
  r.className ++ "_" ++ r.crn

/-- Append `r` under key `k` in an insertion-ordered association list,
modelling `defaultdict(list)` append: an existing key keeps its
position, a new key goes to the end. -/
def addToGroup : List (String × List StudentRecord) → String → StudentRecord →
    List (String × List StudentRecord)
  | [], k, r => [(k, [r])]
  | (k2, l) :: rest, k, r =>
    if k2 = k then (k2, l ++ [r]) :: rest else (k2, l) :: addToGroup rest k r

/-- `for rec in records: grouped[key].append(rec)`. -/
def groupRecords (rs : List StudentRecord) : List (String × List StudentRecord) :=
  rs.foldl (fun acc r => addToGroup acc (recKey r) r) []

/-- Lookup in the grouped association list (dict access). -/
def lookupG : List (String × List StudentRecord) → String → Option (List StudentRecord)
  | [], _ => none
  | (k2, l) :: rest, k => if k2 = k then some l else lookupG rest k

/-- Group keys in order of first appearance of their records — the
spec-side description of the dict's key order. -/
def firstSeenKeys (seen : List String) : List StudentRecord → List String
  | [] => []
  | r :: rs =>
    if recKey r ∈ seen then firstSeenKeys seen rs
    else recKey r :: firstSeenKeys (recKey r :: seen) rs

/-- How a fold over an accumulator entry combines with the records filtered
later: used to phrase the grouping lookup characterisation. -/
def combineG : Option (List StudentRecord) → List StudentRecord →
    Option (List StudentRecord)
  | some l, f => some (l ++ f)
  | none, f => if f.isEmpty then none else some f

/-- Modelled from the spec: "the remainder, split on the first comma …
`firstName` (after comma)" — everything after the first comma, for
comparison with what the code actually computes. -/
def afterFirstComma (cs : List Char) : List Char :=
  (cs.dropWhile (fun c => c ≠ ',')).tail

end ClassList

namespace ClassList

/-! ### Helper lemmas about the row scan -/

theorem scanRows_none (st : Settings) : ∀ lines, scanRows st none lines = [] := by
  intro lines
  induction lines using scanRows.induct st none with
  | case1 => rfl
  | _ => simp_all [scanRows]

theorem scanRows_cons2_match (st : Settings) (c : CourseContext)
    (line next : List Char) (rest : List (List Char)) (pre tok : List Char)
    (h : gSearch line = some (pre, tok)) :
    scanRows st (some c) (line :: next :: rest) =
      rowRecord st c pre tok (some next) :: scanRows st (some c) rest := by
  simp [scanRows, h]

theorem scanRows_single_match (st : Settings) (c : CourseContext)
    (line pre tok : List Char) (h : gSearch line = some (pre, tok)) :
    scanRows st (some c) [line] = [rowRecord st c pre tok none] := by
  simp [scanRows, h]

theorem scanRows_no_gnum (st : Settings) (ctx : Option CourseContext)
    (line : List Char) (rest : List (List Char)) (h : gSearch line = none) :
    scanRows st ctx (line :: rest) = scanRows st ctx rest := by
  cases rest with
  | nil => cases ctx <;> simp [scanRows, h]
  | cons next rest2 => cases ctx <;> simp [scanRows, h]

theorem scanRows_some_mem (st : Settings) (c : CourseContext) :
    ∀ lines, ∀ r ∈ scanRows st (some c) lines,
      r.crn = c.crn ∧ r.className = c.subject ++ " " ++ c.courseNumber := by
  intro lines
  induction lines using scanRows.induct st (some c) with
  | case1 => intro r hr; simp [scanRows] at hr
  | _ => intro r hr; simp_all [scanRows, rowRecord]; try (rcases hr with h1 | h1) <;> simp_all [rowRecord]

/-! ### Helper lemmas about the header pass -/

theorem headerStep_match (st : Settings) (ctx : Option CourseContext)
    (line : List Char) (h : CourseContext) (hm : matchHeader line = some h) :
    headerStep st ctx line = if allowedCourse st h.courseNumber then some h else none := by
  simp [headerStep, hm]

theorem foldl_headerStep_no_match (st : Settings) :
    ∀ (lines : List (List Char)) (ctx : Option CourseContext),
      (∀ l ∈ lines, matchHeader l = none) → lines.foldl (headerStep st) ctx = ctx := by
  intro lines
  induction lines with
  | nil => intro ctx _; rfl
  | cons l rest ih =>
    intro ctx hall
    have h1 : matchHeader l = none := hall l (List.mem_cons_self l rest)
    have h2 : headerStep st ctx l = ctx := by simp [headerStep, h1]
    simp only [List.foldl_cons, h2]
    exact ih ctx (fun x hx => hall x (List.mem_cons_of_mem l hx))

theorem foldl_headerStep_last_match (st : Settings) (ctx : Option CourseContext)
    (l1 : List (List Char)) (line : List Char) (l2 : List (List Char))
    (h : CourseContext) (hm : matchHeader line = some h)
    (hafter : ∀ l ∈ l2, matchHeader l = none) :
    (l1 ++ line :: l2).foldl (headerStep st) ctx =
      (if allowedCourse st h.courseNumber then some h else none) := by
  rw [List.foldl_append, List.foldl_cons, headerStep_match st _ line h hm,
    foldl_headerStep_no_match st l2 _ hafter]

/-! ### Helper lemmas about grouping -/

theorem lookupG_addToGroup (k : String) (r : StudentRecord) :
    ∀ (acc : List (String × List StudentRecord)) (k2 : String),
      lookupG (addToGroup acc k r) k2 =
        if k2 = k then some (((lookupG acc k).getD []) ++ [r]) else lookupG acc k2 := by
  intro acc
  induction acc with
  | nil =>
    intro k2
    by_cases hk : k2 = k
    · simp [addToGroup, lookupG, hk]
    · simp [addToGroup, lookupG, hk, Ne.symm hk]
  | cons e rest ih =>
    intro k2
    obtain ⟨ke, le⟩ := e
    by_cases h1 : ke = k
    · subst h1
      by_cases hk : ke = k2
      · simp [addToGroup, lookupG, hk]
      · simp [addToGroup, lookupG, hk, Ne.symm hk]
    · by_cases hk : k2 = k
      · subst hk
        simp [addToGroup, lookupG, h1, ih, Ne.symm h1]
      · by_cases hke : ke = k2
        · simp [addToGroup, lookupG, h1, hke, ih, hk]
        · simp [addToGroup, lookupG, h1, hke, ih, hk]

theorem lookupG_fold (k : String) :
    ∀ (rs : List StudentRecord) (acc : List (String × List StudentRecord)),
      lookupG (rs.foldl (fun a r => addToGroup a (recKey r) r) acc) k =
        combineG (lookupG acc k) (rs.filter (fun r => recKey r = k)) := by
  intro rs
  induction rs with
  | nil =>
    intro acc
    cases h : lookupG acc k <;> simp [combineG, h]
  | cons r rs ih =>
    intro acc
    simp only [List.foldl_cons]
    rw [ih]
    by_cases hk : recKey r = k
    · subst hk
      rw [lookupG_addToGroup]
      simp only [if_pos rfl]
      cases h : lookupG acc (recKey r) <;>
        simp [combineG, h, List.filter_cons, List.append_assoc]
    · rw [lookupG_addToGroup]
      simp [hk, Ne.symm hk, List.filter_cons]

theorem keys_addToGroup (k : String) (r : StudentRecord) :
    ∀ acc : List (String × List StudentRecord),
      (addToGroup acc k r).map Prod.fst =
        if k ∈ acc.map Prod.fst then acc.map Prod.fst
        else acc.map Prod.fst ++ [k] := by
  intro acc
  induction acc with
  | nil => simp [addToGroup]
  | cons e rest ih =>
    obtain ⟨ke, le⟩ := e
    by_cases h1 : ke = k
    · simp [addToGroup, h1]
    · simp only [addToGroup, h1, if_false, List.map_cons, List.mem_cons, ih]
      by_cases h2 : k ∈ rest.map Prod.fst
      · simp [h2, Ne.symm h1]
      · simp [h2, Ne.symm h1]

theorem firstSeenKeys_congr :
    ∀ (rs : List StudentRecord) (s1 s2 : List String),
      (∀ x, x ∈ s1 ↔ x ∈ s2) →
      firstSeenKeys s1 rs = firstSeenKeys s2 rs := by
  intro rs
  induction rs with
  | nil => intro s1 s2 _; rfl
  | cons r rs ih =>
    intro s1 s2 hmem
    simp only [firstSeenKeys]
    by_cases h : recKey r ∈ s2
    · rw [if_pos ((hmem _).mpr h), if_pos h]
      exact ih s1 s2 hmem
    · rw [if_neg (fun hx => h ((hmem _).mp hx)), if_neg h]
      rw [ih (recKey r :: s1) (recKey r :: s2) (by intro x; simp [hmem x])]

theorem keys_fold :
    ∀ (rs : List StudentRecord) (acc : List (String × List StudentRecord)),
      (rs.foldl (fun a r => addToGroup a (recKey r) r) acc).map Prod.fst =
        acc.map Prod.fst ++ firstSeenKeys (acc.map Prod.fst) rs := by
  intro rs
  induction rs with
  | nil => intro acc; simp [firstSeenKeys]
  | cons r rs ih =>
    intro acc
    simp only [List.foldl_cons]
    rw [ih, keys_addToGroup]
    by_cases hc : recKey r ∈ acc.map Prod.fst
    · simp only [hc, if_true, firstSeenKeys, if_pos hc]
    · simp only [hc, if_false, firstSeenKeys]
      rw [firstSeenKeys_congr rs (acc.map Prod.fst ++ [recKey r]) (recKey r :: acc.map Prod.fst)
        (by intro x; simp [or_comm])]
      simp [List.append_assoc]

theorem flatten_addToGroup (k : String) (r : StudentRecord) :
    ∀ acc : List (String × List StudentRecord),
      ((addToGroup acc k r).map Prod.snd).flatten.Perm
        ((acc.map Prod.snd).flatten ++ [r]) := by
  intro acc
  induction acc with
  | nil => simp [addToGroup]
  | cons e rest ih =>
    obtain ⟨ke, le⟩ := e
    by_cases h1 : ke = k
    · simp only [addToGroup, h1, if_true, List.map_cons, List.flatten_cons]
      have hp := (List.perm_append_singleton r ((rest.map Prod.snd).flatten)).symm.append_left le
      simpa [List.append_assoc] using hp
    · simp only [addToGroup, h1, if_false, List.map_cons, List.flatten_cons]
      rw [List.append_assoc]
      exact ih.append_left le

theorem flatten_fold :
    ∀ (rs : List StudentRecord) (acc : List (String × List StudentRecord)),
      ((rs.foldl (fun a r => addToGroup a (recKey r) r) acc).map Prod.snd).flatten.Perm
        ((acc.map Prod.snd).flatten ++ rs) := by
  intro rs
  induction rs with
  | nil => intro acc; simp
  | cons r rs ih =>
    intro acc
    simp only [List.foldl_cons]
    refine (ih _).trans ?_
    refine ((flatten_addToGroup (recKey r) r acc).append_right rs).trans ?_
    simp [List.append_assoc]

theorem firstSeenKeys_nodup :
    ∀ (rs : List StudentRecord) (seen : List String),
      (firstSeenKeys seen rs).Nodup ∧ ∀ k ∈ firstSeenKeys seen rs, k ∉ seen := by
  intro rs
  induction rs with
  | nil => intro seen; simp [firstSeenKeys]
  | cons r rs ih =>
    intro seen
    simp only [firstSeenKeys]
    by_cases h : recKey r ∈ seen
    · simpa [h] using ih seen
    · simp only [h, if_false]
      obtain ⟨hnd, hni⟩ := ih (recKey r :: seen)
      constructor
      · refine List.nodup_cons.mpr ⟨fun hx => ?_, hnd⟩
        exact hni _ hx (List.mem_cons_self _ _)
      · intro k hk
        rcases List.mem_cons.mp hk with rfl | hk2
        · exact h
        · intro hks
          exact hni k hk2 (List.mem_cons_of_mem _ hks)

end ClassList

namespace ClassList

/-! ### Claim theorems -/

/-- Claim C1: for every page, the state machine runs the complete header pass
(a left fold over all lines, last match winning) before the row pass, so every
record produced on the page carries the course fields of the context active
after the full header pass — even when the student row appears textually before
a later header line of the same page. -/
theorem C1_two_pass_attribution :
    (∀ (st : Settings) (ctx : Option CourseContext) (lines : List (List Char)),
      ∀ r ∈ (processPage st ctx lines).2, ∃ c,
        lines.foldl (headerStep st) ctx = some c ∧
        r.crn = c.crn ∧ r.className = c.subject ++ " " ++ c.courseNumber) ∧
    (∀ (st : Settings) (ctx : Option CourseContext) (l1 : List (List Char))
        (line : List Char) (l2 : List (List Char)) (h : CourseContext),
      matchHeader line = some h → (∀ l ∈ l2, matchHeader l = none) →
      (l1 ++ line :: l2).foldl (headerStep st) ctx =
        (if allowedCourse st h.courseNumber then some h else none)) := by
  constructor
  · intro st ctx lines r hr
    simp only [processPage] at hr
    cases hctx : lines.foldl (headerStep st) ctx with
    | none => rw [hctx] at hr; rw [scanRows_none] at hr; simp at hr
    | some c =>
      rw [hctx] at hr
      exact ⟨c, rfl, scanRows_some_mem st c lines r hr⟩
  · intro st ctx l1 line l2 h hm hafter
    exact foldl_headerStep_last_match st ctx l1 line l2 h hm hafter

/-- Witness for C1: a page where the student row stands textually before the
header line; the record is attributed to that later header's course. -/
theorem C1_witness :
    ∃ c, (["1 Doe, Jane G00012345".data,
           "12345 GEO 170 1 Intro".data].foldl (headerStep defaultSettings) none)
        = some c ∧
      ({ firstName := "Jane", lastName := "Doe", gNumber := "G00012345",
         pccEmail := "", nonPccEmail := "", className := "GEO 170",
         crn := "12345" } : StudentRecord).crn = c.crn ∧
      ({ firstName := "Jane", lastName := "Doe", gNumber := "G00012345",
         pccEmail := "", nonPccEmail := "", className := "GEO 170",
         crn := "12345" } : StudentRecord).className =
        c.subject ++ " " ++ c.courseNumber :=
  C1_two_pass_attribution.1 defaultSettings none
    ["1 Doe, Jane G00012345".data, "12345 GEO 170 1 Intro".data] _ (by decide)

/-- Claim C2: a header-shaped line whose course number is excluded clears the
current-course state to "no active course", and rows scanned with no active
course produce no records (so they are dropped, not attributed to the
previously active course). -/
theorem C2_excluded_header_clears :
    (∀ (st : Settings) (ctx : Option CourseContext) (line : List Char)
        (h : CourseContext),
      matchHeader line = some h → allowedCourse st h.courseNumber = false →
      headerStep st ctx line = none) ∧
    (∀ (st : Settings) (lines : List (List Char)), scanRows st none lines = []) ∧
    (∀ (st : Settings) (ctx : Option CourseContext) (lines : List (List Char)),
      lines.foldl (headerStep st) ctx = none → (processPage st ctx lines).2 = []) := by
  refine ⟨?_, ?_, ?_⟩
  · intro st ctx line h hm hexc
    rw [headerStep_match st ctx line h hm, hexc]
    simp
  · exact scanRows_none
  · intro st ctx lines hfold
    simp only [processPage, hfold]
    exact scanRows_none st lines

/-- Witness for C2: the excluded header `22222 GEO 999 1 Excluded Topic`
clears an active GEO 170 context under the default allow-list. -/
theorem C2_witness :
    headerStep defaultSettings
      (some { crn := "12345", subject := "GEO", courseNumber := "170",
              sect := "1", courseName := "Intro" })
      ("22222 GEO 999 1 Excluded Topic".data) = none :=
  C2_excluded_header_clears.1 defaultSettings _ ("22222 GEO 999 1 Excluded Topic".data)
    { crn := "22222", subject := "GEO", courseNumber := "999",
      sect := "1", courseName := "Excluded Topic" }
    (by decide) (by decide)

/-- Counterexample to claim C3 as stated: the scanned line contains two
identifier tokens, the course context is active, yet only one record is
produced (for the first token) and none carries the second token. -/
theorem C3_counterexample :
    (isSubstr ("G00067890".data) ("1 Doe, Jane G00012345 G00067890".data) = true) ∧
    (scanRows defaultSettings
        (some { crn := "12345", subject := "GEO", courseNumber := "170",
                sect := "1", courseName := "Intro" })
        ["1 Doe, Jane G00012345 G00067890".data]).length = 1 ∧
    ((scanRows defaultSettings
        (some { crn := "12345", subject := "GEO", courseNumber := "170",
                sect := "1", courseName := "Intro" })
        ["1 Doe, Jane G00012345 G00067890".data]).filter
      (fun r => r.gNumber = "G00067890")) = [] := by decide

/-- Claim C3 (amended): per scanned line, not per token — a line scanned while
a course context is active yields exactly one record, carrying the first
identifier token of the line; a scanned line with no token, or any line
scanned with no active course context, yields none. -/
theorem C3_one_record_per_scanned_line :
    (∀ (st : Settings) (c : CourseContext) (line pre tok : List Char),
      gSearch line = some (pre, tok) →
      (scanRows st (some c) [line]).length = 1 ∧
      ∀ r ∈ scanRows st (some c) [line], r.gNumber = String.mk tok) ∧
    (∀ (st : Settings) (ctx : Option CourseContext) (line : List Char),
      gSearch line = none → scanRows st ctx [line] = []) ∧
    (∀ (st : Settings) (lines : List (List Char)), scanRows st none lines = []) := by
  refine ⟨?_, ?_, ?_⟩
  · intro st c line pre tok h
    rw [scanRows_single_match st c line pre tok h]
    constructor
    · rfl
    · intro r hr
      rw [List.mem_singleton] at hr
      rw [hr]
      rfl
  · intro st ctx line h
    rw [scanRows_no_gnum st ctx line [] h]
    rfl
  · exact scanRows_none

/-- Witness for amended C3 at a concrete scanned line. -/
theorem C3_witness :
    (scanRows defaultSettings
        (some { crn := "12345", subject := "GEO", courseNumber := "170",
                sect := "1", courseName := "Intro" })
        ["1 Doe, Jane G00012345".data]).length = 1 ∧
    ∀ r ∈ scanRows defaultSettings
        (some { crn := "12345", subject := "GEO", courseNumber := "170",
                sect := "1", courseName := "Intro" })
        ["1 Doe, Jane G00012345".data],
      r.gNumber = String.mk ("G00012345".data) :=
  C3_one_record_per_scanned_line.1 defaultSettings _ ("1 Doe, Jane G00012345".data)
    ("1 Doe, Jane ".data) ("G00012345".data) (by decide)

/-- Counterexample to claim C4 as stated: the line after a matched student row
is itself a student row and not an email line (no domain substring), yet the
scan still advances past it — it is never scanned, and only one record comes
out instead of two. -/
theorem C4_counterexample :
    ((gSearch ("2 Roe, Bob G00067890".data)).isSome = true) ∧
    (isSubstr ("@pcc.edu".data) (pyStrip ("2 Roe, Bob G00067890".data)) = false) ∧
    ((scanRows defaultSettings
        (some { crn := "12345", subject := "GEO", courseNumber := "170",
                sect := "1", courseName := "Intro" })
        ["1 Doe, Jane G00012345".data, "2 Roe, Bob G00067890".data]).map
      (fun r => r.gNumber) = ["G00012345"]) ∧
    ((scanRows defaultSettings
        (some { crn := "12345", subject := "GEO", courseNumber := "170",
                sect := "1", courseName := "Intro" })
        ["1 Doe, Jane G00012345".data, "2 Roe, Bob G00067890".data]).map
      (fun r => r.pccEmail) = [""]) := by decide

/-- Claim C4 (amended): after any matched student row the scan advances past
two lines unconditionally — also when the following line was not consumed as
an email — so the following line is never scanned; only a line without a
match (no token, or no active course) advances the scan by one line. -/
theorem C4_advance_two_after_match :
    (∀ (st : Settings) (c : CourseContext) (line next : List Char)
        (rest : List (List Char)) (pre tok : List Char),
      gSearch line = some (pre, tok) →
      scanRows st (some c) (line :: next :: rest) =
        rowRecord st c pre tok (some next) :: scanRows st (some c) rest) ∧
    (∀ (st : Settings) (ctx : Option CourseContext) (line : List Char)
        (rest : List (List Char)),
      gSearch line = none → scanRows st ctx (line :: rest) = scanRows st ctx rest) ∧
    (∀ (st : Settings) (line : List Char) (rest : List (List Char)),
      scanRows st none (line :: rest) = scanRows st none rest) := by
  refine ⟨?_, ?_, ?_⟩
  · exact scanRows_cons2_match
  · exact scanRows_no_gnum
  · intro st line rest
    rw [scanRows_none, scanRows_none]

/-- Witness for amended C4: the concrete two-row page skips the second row. -/
theorem C4_witness :
    scanRows defaultSettings
      (some { crn := "12345", subject := "GEO", courseNumber := "170",
              sect := "1", courseName := "Intro" })
      ["1 Doe, Jane G00012345".data, "2 Roe, Bob G00067890".data] =
    rowRecord defaultSettings
      { crn := "12345", subject := "GEO", courseNumber := "170",
        sect := "1", courseName := "Intro" }
      ("1 Doe, Jane ".data) ("G00012345".data) (some ("2 Roe, Bob G00067890".data)) ::
    scanRows defaultSettings
      (some { crn := "12345", subject := "GEO", courseNumber := "170",
              sect := "1", courseName := "Intro" }) [] :=
  C4_advance_two_after_match.1 defaultSettings _ ("1 Doe, Jane G00012345".data)
    ("2 Roe, Bob G00067890".data) [] ("1 Doe, Jane ".data) ("G00012345".data) (by decide)

/-- Claim C10: the course context is never reset at a page boundary — the fold
of a header-free page returns the incoming context unchanged, so its rows are
attributed to the most recent accepted header of an earlier page, and produce
nothing exactly when that inherited context was cleared or never set. -/
theorem C10_context_persists_across_pages :
    (∀ (st : Settings) (lines : List (List Char)) (ctx : Option CourseContext),
      (∀ l ∈ lines, matchHeader l = none) →
      lines.foldl (headerStep st) ctx = ctx) ∧
    (∀ (st : Settings) (ctx : Option CourseContext) (pg : List (List Char))
        (rest : List (List (List Char))),
      (∀ l ∈ pg, matchHeader l = none) →
      processPages st ctx (pg :: rest) =
        scanRows st ctx pg ++ processPages st ctx rest) ∧
    (∀ (st : Settings) (pg : List (List Char)) (rest : List (List (List Char))),
      (∀ l ∈ pg, matchHeader l = none) →
      processPages st none (pg :: rest) = processPages st none rest) := by
  refine ⟨?_, ?_, ?_⟩
  · intro st lines ctx hall
    exact foldl_headerStep_no_match st lines ctx hall
  · intro st ctx pg rest hall
    simp only [processPages, processPage, foldl_headerStep_no_match st pg ctx hall]
  · intro st pg rest hall
    simp only [processPages, processPage, foldl_headerStep_no_match st pg none hall,
      scanRows_none, List.nil_append]

/-- Witness for C10: a page with no header-shaped line leaves an active
GEO 170 context in place and its rows are attributed to it. -/
theorem C10_witness :
    processPages defaultSettings
      (some { crn := "12345", subject := "GEO", courseNumber := "170",
              sect := "1", courseName := "Intro" })
      [["1 Doe, Jane G00012345".data]] =
    scanRows defaultSettings
      (some { crn := "12345", subject := "GEO", courseNumber := "170",
              sect := "1", courseName := "Intro" })
      ["1 Doe, Jane G00012345".data] ++
    processPages defaultSettings
      (some { crn := "12345", subject := "GEO", courseNumber := "170",
              sect := "1", courseName := "Intro" }) [] :=
  C10_context_persists_across_pages.2.1 defaultSettings _ _ [] (by decide)

end ClassList

namespace ClassList

/-- Counterexample to claim C5 as stated: the next line is itself a new
student row (its identifier search succeeds) and contains the domain
substring, so per the claim the email field should be empty — but the code
takes the first whitespace token of that line, the row marker `2`. -/
theorem C5_counterexample :
    ((gSearch ("2 Smith, Bob G00067890 bsmith@pcc.edu".data)).isSome = true) ∧
    (isSubstr ("@pcc.edu".data)
      (pyStrip ("2 Smith, Bob G00067890 bsmith@pcc.edu".data)) = true) ∧
    ((scanRows defaultSettings
        (some { crn := "12345", subject := "GEO", courseNumber := "170",
                sect := "1", courseName := "Intro" })
        ["1 Doe, Jane G00012345".data,
         "2 Smith, Bob G00067890 bsmith@pcc.edu".data]).map
      (fun r => r.pccEmail) = ["2"]) := by decide

/-- Claim C5 (amended): the email field equals the first whitespace-delimited
token of the (stripped) next line iff a next line exists and contains the
configured domain as a substring — the code does not test whether the next
line is itself a new student row; otherwise the email field is empty. -/
theorem C5_email_lookahead :
    (∀ (st : Settings) (next : List Char),
      (isSubstr st.emailDomain.data (pyStrip next) = true →
        emailLookahead st (some next) = String.mk (firstWsToken (pyStrip next))) ∧
      (isSubstr st.emailDomain.data (pyStrip next) = false →
        emailLookahead st (some next) = "")) ∧
    (∀ st : Settings, emailLookahead st none = "") ∧
    (∀ (st : Settings) (c : CourseContext) (pre tok : List Char)
        (nl : Option (List Char)),
      (rowRecord st c pre tok nl).pccEmail = emailLookahead st nl) ∧
    (∀ (st : Settings) (c : CourseContext) (line next : List Char)
        (rest : List (List Char)) (pre tok : List Char),
      gSearch line = some (pre, tok) →
      (scanRows st (some c) (line :: next :: rest)).head? =
        some (rowRecord st c pre tok (some next))) ∧
    (∀ (st : Settings) (c : CourseContext) (line pre tok : List Char),
      gSearch line = some (pre, tok) →
      (scanRows st (some c) [line]).map (fun r => r.pccEmail) = [""]) := by
  refine ⟨?_, ?_, ?_, ?_, ?_⟩
  · intro st next
    constructor
    · intro hsub
      simp [emailLookahead, hsub]
    · intro hsub
      simp [emailLookahead, hsub]
  · intro st; rfl
  · intro st c pre tok nl; rfl
  · intro st c line next rest pre tok h
    rw [scanRows_cons2_match st c line next rest pre tok h]
    rfl
  · intro st c line pre tok h
    rw [scanRows_single_match st c line pre tok h]
    rfl

/-- Witness for amended C5: a concrete email line supplies its first token,
a concrete non-email line leaves the field empty. -/
theorem C5_witness :
    emailLookahead defaultSettings (some ("jdoe@pcc.edu extra".data)) =
      String.mk (firstWsToken (pyStrip ("jdoe@pcc.edu extra".data))) :=
  (C5_email_lookahead.1 defaultSettings ("jdoe@pcc.edu extra".data)).1 (by decide)

/-- Counterexample to claim C6 as stated: with two commas in the name part,
the claim's firstName — everything after the first comma, trimmed, here
`Jane, Jr` — differs from what the code produces, the text between the first
and second commas, `Jane`. -/
theorem C6_counterexample :
    (splitFirstTok ("1 Doe, Jane, Jr ".data) = ["1".data, "Doe, Jane, Jr ".data]) ∧
    (String.mk (pyStrip (afterFirstComma ("Doe, Jane, Jr ".data))) = "Jane, Jr") ∧
    (extractNames ("1 Doe, Jane, Jr ".data) = ("Doe", "Jane")) ∧
    (("Jane" : String) ≠ "Jane, Jr") := by decide

/-- Claim C6 (amended): the text before the identifier token, with its first
whitespace-delimited segment dropped, is split at every comma; lastName is the
first segment trimmed and firstName is the second segment trimmed (the text
between the first and second commas, not everything after the first comma);
when the decomposition fails (no comma, or no remainder) both fields are empty,
no exception propagates, and the record is still emitted. -/
theorem C6_name_decomposition :
    (∀ (pre t rest l f : List Char) (ss : List (List Char)),
      splitFirstTok pre = [t, rest] → splitComma rest = l :: f :: ss →
      extractNames pre = (String.mk (pyStrip l), String.mk (pyStrip f))) ∧
    (∀ (pre t rest l : List Char),
      splitFirstTok pre = [t, rest] → splitComma rest = [l] →
      extractNames pre = ("", "")) ∧
    (∀ pre : List Char, (splitFirstTok pre).length ≤ 1 →
      extractNames pre = ("", "")) ∧
    (∀ (st : Settings) (c : CourseContext) (line pre tok : List Char),
      gSearch line = some (pre, tok) → (scanRows st (some c) [line]).length = 1) := by
  refine ⟨?_, ?_, ?_, ?_⟩
  · intro pre t rest l f ss h1 h2
    simp [extractNames, h1, h2]
  · intro pre t rest l h1 h2
    simp [extractNames, h1, h2]
  · intro pre hlen
    cases hs : splitFirstTok pre with
    | nil => simp [extractNames, hs]
    | cons a tl =>
      cases tl with
      | nil => simp [extractNames, hs]
      | cons b tl2 => rw [hs] at hlen; simp at hlen
  · intro st c line pre tok h
    rw [scanRows_single_match st c line pre tok h]
    rfl

/-- Witness for amended C6 on a concrete well-formed row text. -/
theorem C6_witness :
    extractNames ("1 Doe, Jane ".data) =
      (String.mk (pyStrip ("Doe".data)), String.mk (pyStrip (" Jane ".data))) :=
  C6_name_decomposition.1 ("1 Doe, Jane ".data) ("1".data) ("Doe, Jane ".data)
    ("Doe".data) (" Jane ".data) [] (by decide) (by decide)

end ClassList

namespace ClassList

/-- Claim C7: grouping is a pure partition keyed by `"<className>_<crn>"`:
each key's group is exactly the subsequence of records with that key (so
membership is determined solely by className and crn, insertion order is kept,
and nothing is deduplicated), keys appear in first-seen order without
duplicates, and the concatenation of all groups is a permutation of the full
record sequence (no record omitted or duplicated). -/
theorem C7_grouping_partition :
    (∀ (rs : List StudentRecord) (k : String),
      lookupG (groupRecords rs) k =
        (if (rs.filter (fun r => recKey r = k)).isEmpty then none
         else some (rs.filter (fun r => recKey r = k)))) ∧
    (∀ rs : List StudentRecord,
      (groupRecords rs).map Prod.fst = firstSeenKeys [] rs) ∧
    (∀ rs : List StudentRecord, ((groupRecords rs).map Prod.fst).Nodup) ∧
    (∀ rs : List StudentRecord, ((groupRecords rs).map Prod.snd).flatten.Perm rs) := by
  refine ⟨?_, ?_, ?_, ?_⟩
  · intro rs k
    have h := lookupG_fold k rs []
    simpa [groupRecords, combineG, lookupG] using h
  · intro rs
    have h := keys_fold rs []
    simpa [groupRecords] using h
  · intro rs
    have h := keys_fold rs []
    have h2 : (groupRecords rs).map Prod.fst = firstSeenKeys [] rs := by
      simpa [groupRecords] using h
    rw [h2]
    exact (firstSeenKeys_nodup rs []).1
  · intro rs
    have h := flatten_fold rs []
    simpa [groupRecords] using h

/-- Claim C8: term detection prefers the direct phrase (season capitalised,
year unchanged), falls back to decoding the first coded token `20YY0S` via
1→Winter, 2→Spring, 3→Summer, 4→Fall with the first four digits as the year,
and yields the empty string when neither pattern occurs; in particular
`...Fall 2025...` gives `Fall 2025`, `...202503...` gives `Summer 2025`, and
text with neither pattern gives the empty string. -/
theorem C8_term_detection :
    (detectTerm ("...Fall 2025...".data) = "Fall 2025") ∧
    (detectTerm ("...202503...".data) = "Summer 2025") ∧
    (detectTerm ("no term in this header".data) = "") ∧
    (termFromCode ("202501".data) = "Winter 2025") ∧
    (termFromCode ("202502".data) = "Spring 2025") ∧
    (termFromCode ("202503".data) = "Summer 2025") ∧
    (termFromCode ("202504".data) = "Fall 2025") ∧
    (∀ text s y : List Char, termTextGo none text = some (s, y) →
      detectTerm text = String.mk (titleWord s ++ ' ' :: y)) ∧
    (∀ text code : List Char, termTextGo none text = none →
      termCodeGo none text = some code → detectTerm text = termFromCode code) ∧
    (∀ text : List Char, termTextGo none text = none →
      termCodeGo none text = none → detectTerm text = "") := by
  refine ⟨by decide, by decide, by decide, by decide, by decide, by decide, by decide,
    ?_, ?_, ?_⟩
  · intro text s y h
    simp [detectTerm, h]
  · intro text code h1 h2
    simp [detectTerm, h1, h2]
  · intro text h1 h2
    simp [detectTerm, h1, h2]

/-- Witness for C8: the coded-token branch applied at a concrete input. -/
theorem C8_witness :
    detectTerm ("term 202502 x".data) = termFromCode ("202502".data) :=
  C8_term_detection.2.2.2.2.2.2.2.2.1 ("term 202502 x".data) ("202502".data)
    (by decide) (by decide)

end ClassList

namespace ClassList

theorem headerStep_prefix_irrel (st : Settings) (p : Option String) :
    headerStep { st with departmentPrefix := p } = headerStep st := rfl

theorem scanRows_prefix_irrel (st : Settings) (p : Option String)
    (ctx : Option CourseContext) :
    ∀ lines, scanRows { st with departmentPrefix := p } ctx lines =
      scanRows st ctx lines := by
  intro lines
  induction lines using scanRows.induct st ctx with
  | _ => simp_all [scanRows, rowRecord, emailLookahead]

/-- Claim C9 concerns `department_prefix`; the parsing loop never reads it:
the scan result is invariant under any change of the option, and with the
option set to `GEO` a page for subject `MTH` still yields a record (the
configuration comment promises the opposite). -/
theorem C9_department_prefix_ignored :
    (∀ (st : Settings) (p : Option String) (ctx : Option CourseContext)
        (pages : List (List (List Char))),
      processPages { st with departmentPrefix := p } ctx pages =
        processPages st ctx pages) ∧
    ((parseDocument { defaultSettings with departmentPrefix := some "GEO" }
        [["12345 MTH 170 1 Calculus I".data, "1 Doe, Jane G00012345".data]]).map
      (fun r => r.className) = ["MTH 170"]) := by
  constructor
  · intro st p ctx pages
    induction pages generalizing ctx with
    | nil => rfl
    | cons pg rest ih =>
      simp only [processPages, processPage, headerStep_prefix_irrel,
        scanRows_prefix_irrel, ih]
  · decide

end ClassList
